import Mathlib

/-!
Verification of the LIT datapoint-editor module
(`lit_nlp/client/modules/datapoint_editor_module.ts`) and the global
settings module (`lit_nlp/client/modules/global_settings.ts`).

The TypeScript is embedded shallowly:
* JS strings manipulated character-wise (the token / sparse-multilabel
  converters, which call `Array.prototype.join` and
  `String.prototype.split`) are modelled as `List Char`;
* JS strings used only as opaque names, ids or for equality tests are
  modelled as Lean `String`;
* JS objects used as records (`editedData`, datapoints) are modelled as
  association lists `List (String × LitValue)`; `o[k]` is `jsObjGet`;
* nullable values are `Option`; external collaborators (the group
  service's feature classification, the settings-validation predicate,
  `indexDatapoints`) are universally quantified function parameters.
-/

namespace Lit

/-- JS strings, modelled as lists of characters, for the code that
manipulates string contents (join/split converters). -/
abbrev JSStr := List Char

/-- JS `Array.prototype.join(sep)` for an array of strings: the elements
interleaved with the separator; the empty array joins to the empty
string. -/
def jsJoin (sep : JSStr) : List JSStr → JSStr
  | [] => []
  | [t] => t
  | t :: u :: ts => t ++ sep ++ jsJoin sep (u :: ts)

/-- The first occurrence of `sep` in a string: `some (pre, post)` where the
string is `pre ++ sep ++ post` and `sep` does not start anywhere inside
`pre ++ sep` before that occurrence; `none` when `sep` does not occur. -/
def splitFirst (sep : JSStr) : JSStr → Option (JSStr × JSStr)
  | [] => none
  | c :: rest =>
    if sep.isPrefixOf (c :: rest) then
      some ([], (c :: rest).drop sep.length)
    else
      match splitFirst sep rest with
      | none => none
      | some (pre, post) => some (c :: pre, post)

/-- Fuel-driven repeated splitting at each occurrence of a non-empty
separator, scanning left to right (the loop inside JS
`String.prototype.split`). -/
def jsSplitGo (sep : JSStr) : Nat → JSStr → List JSStr
  | 0, s => [s]
  | fuel + 1, s =>
    match splitFirst sep s with
    | none => [s]
    | some (pre, post) => pre :: jsSplitGo sep fuel post

/-- JS `String.prototype.split(sep)` for a string separator: the empty
separator splits the string into its characters; otherwise the string is
cut at each occurrence of `sep` found scanning left to right.  In
particular `"".split(sep) = [""]` for non-empty `sep`. -/
def jsSplit (sep s : JSStr) : List JSStr :=
  if sep = [] then s.map (fun c => [c]) else jsSplitGo sep (s.length + 1) s

/-- The converter installed by `renderTokensInput` for a raw textarea value:
`value ? value.split(' ') : []` — the empty string parses to the empty
token list, everything else is split on single spaces. -/
def parseTokensValue (value : JSStr) : List JSStr :=
  if value = [] then [] else jsSplit [' '] value

/-- The string displayed by `renderTokensInput` for a (possibly absent)
token-list field value: `value ? value.join(' ') : ''`. -/
def tokensDisplay : Option (List JSStr) → JSStr
  | none => []
  | some v => jsJoin [' '] v

/-- The converter installed by `renderSparseMultilabelInputGenerator
(separator)`: `value ? value.split(separator) : []`. -/
def parseSparseMultilabelValue (separator : JSStr) (value : JSStr) : List JSStr :=
  if value = [] then [] else jsSplit separator value

/-- The string displayed by `renderSparseMultilabelInputGenerator
(separator)`: `value ? value.join(separator) : ''`. -/
def sparseMultilabelDisplay (separator : JSStr) : Option (List JSStr) → JSStr
  | none => []
  | some v => jsJoin separator v

/-- A LIT field type descriptor, as far as `renderEntry` inspects it: its
type name (`__name__`), an optional vocabulary (enumeration) and an
optional sparse-multilabel separator. -/
structure LitType where
  typeName : String
  vocab : Option (List String) := none
  separator : Option String := none
deriving DecidableEq

/-- Modelled from the spec: `isLitSubtype` lives in the library's `utils`
module, which is not part of this fragment; per the spec's dispatch
wording ("field kind is X") it recognises whether a field's declared type
is one of the named kinds. -/
def isLitSubtype (t : LitType) (names : List String) : Bool :=
  names.contains t.typeName

/-- The input-rendering strategies `renderEntry` can select for a field. -/
inductive RenderStrategy where
  | categoricalInput
  | shortformInput
  | numericInput
  | tokensInput
  | spanLabelsNonEditable
  | edgeLabelsNonEditable
  | sparseMultilabelInput
  | freeformInput
deriving DecidableEq

/-- The strategy-selection chain of `renderEntry` (lines 381–399):
`renderInput` starts at the freeform default and is replaced by the first
matching branch of the `if`/`else if` chain.  `catNames` and `numNames`
are the group service's categorical / numerical feature-name lists. -/
def chooseRenderStrategy (catNames numNames : List String) (key : String)
    (fieldSpec : LitType) : RenderStrategy :=
  if fieldSpec.vocab.isSome then .categoricalInput
  else if catNames.contains key then .shortformInput
  else if numNames.contains key then .numericInput
  else if isLitSubtype fieldSpec ["Tokens", "SequenceTags"] then .tokensInput
  else if isLitSubtype fieldSpec ["SpanLabels"] then .spanLabelsNonEditable
  else if isLitSubtype fieldSpec ["EdgeLabels"] then .edgeLabelsNonEditable
  else if isLitSubtype fieldSpec ["SparseMultilabel"] then .sparseMultilabelInput
  else .freeformInput

/-- The dispatch policy of §4.1 written as an explicit ordered table of
(condition, strategy) pairs, to state first-match-wins. -/
def dispatchTable (catNames numNames : List String) (key : String)
    (fieldSpec : LitType) : List (Bool × RenderStrategy) :=
  [(fieldSpec.vocab.isSome, .categoricalInput),
   (catNames.contains key, .shortformInput),
   (numNames.contains key, .numericInput),
   (isLitSubtype fieldSpec ["Tokens", "SequenceTags"], .tokensInput),
   (isLitSubtype fieldSpec ["SpanLabels"], .spanLabelsNonEditable),
   (isLitSubtype fieldSpec ["EdgeLabels"], .edgeLabelsNonEditable),
   (isLitSubtype fieldSpec ["SparseMultilabel"], .sparseMultilabelInput)]

/-- First-match-wins evaluation of a dispatch table; the default (free
text) applies when nothing matches. -/
def firstMatch : List (Bool × RenderStrategy) → RenderStrategy
  | [] => .freeformInput
  | (b, r) :: rest => if b then r else firstMatch rest

/-- The separator handed to `renderSparseMultilabelInputGenerator`:
`fieldSpec.separator ?? ','`. -/
def sparseSeparator (fieldSpec : LitType) : String :=
  fieldSpec.separator.getD ","

/-- A field value of a datapoint: a string, a number or a list of
strings, matching the editor's converter result type
`string | number | string[]`. -/
inductive LitValue where
  | str (s : String)
  | num (n : Int)
  | strList (l : List String)
deriving DecidableEq

/-- JS object property access `o[k]` on a record modelled as an
association list. -/
def jsObjGet (o : List (String × LitValue)) (k : String) : Option LitValue :=
  (o.find? (fun p => p.1 == k)).map (fun p => p.2)

/-- Getter `allRequiredInputsFilledOut` (lines 180–192): false iff the loop over
`Object.keys(this.editedData)` finds a key that is in
`currentModelRequiredInputSpecKeys` whose value is `=== ''`. -/
def allRequiredInputsFilledOut (currentModelRequiredInputSpecKeys : List String)
    (editedData : List (String × LitValue)) : Bool :=
  !((editedData.map Prod.fst).any (fun k =>
      currentModelRequiredInputSpecKeys.contains k &&
      decide (jsObjGet editedData k = some (LitValue.str ""))))

/-- The editor's observable draft state: `editedData` and the
`datapointEdited` dirty flag. -/
structure EditorState where
  editedData : List (String × LitValue)
  datapointEdited : Bool
deriving DecidableEq

/-- Method `resetEditedData` (lines 148–162): clears the dirty flag and rebuilds
the draft — from `currentInputDataKeys` and `defaultValueByField` when no
datapoint is selected, otherwise from the selected record's own keys and
values.  `defaultValueByField` (from the library's `types` module, not in
this fragment) is kept abstract as a parameter. -/
def resetEditedData (currentInputDataKeys : List String)
    (currentDatasetSpec : List (String × LitType))
    (defaultValueByField : String → List (String × LitType) → LitValue)
    (selectedInputData : Option (List (String × LitValue))) : EditorState :=
  let keys := match selectedInputData with
    | none => currentInputDataKeys
    | some d => d.map Prod.fst
  { datapointEdited := false
    editedData := keys.map (fun k => (k,
      match selectedInputData with
      | none => defaultValueByField k currentDatasetSpec
      | some d => (jsObjGet d k).getD (LitValue.str ""))) }

/-- Provenance metadata of an `IndexedInput`. -/
structure IndexedInputMeta where
  source : String
  added : Bool
  parentId : Option String
deriving DecidableEq

/-- An indexed datapoint: data record, id and metadata. -/
structure IndexedInput where
  data : List (String × LitValue)
  id : String
  meta : IndexedInputMeta
deriving DecidableEq

/-- The slice of the selection service the editor uses.  Ids are
`Option String` because the code can pass a possibly-null id into
`selectIds`. -/
structure SelectionState where
  selectedIds : List (Option String)
  primarySelectedId : Option String
deriving DecidableEq

/-- Modelled from the spec: the selection service (an external
collaborator) replaces the selection with the given ids; the primary
selected id becomes the first of them, or null when the selection is
emptied. -/
def SelectionState.selectIds (ids : List (Option String)) : SelectionState :=
  { selectedIds := ids, primarySelectedId := ids.head?.bind id }

/-- The state read and written by the editor's commit actions: the draft,
both selection services, the comparison-mode flag and (modelled from the
spec: `commitNewDatapoints` is an external collaborator that indexes and
stores records) the list of committed datapoints. -/
structure EditorFlowState where
  editedData : List (String × LitValue)
  datapointEdited : Bool
  primarySelection : SelectionState
  secondarySelection : SelectionState
  compareExamplesEnabled : Bool
  committed : List IndexedInput
deriving DecidableEq

/-- The datum packaged by `onClickNew` (lines 200–209): the draft, a
placeholder id, and metadata with source `"manual"`, `added` and
`parentId := this.selectionService.primarySelectedId`
(the TS `!` assertion does not change the runtime value, so a null
primary selection flows through as a null `parentId`). -/
def newDatum (editedData : List (String × LitValue))
    (parentId : Option String) : IndexedInput :=
  { data := editedData, id := "",
    meta := { source := "manual", added := true, parentId := parentId } }

/-- Handler `onClickNew` (lines 200–213): package the draft, have the external
`indexDatapoints` collaborator assign ids, commit the result and select
the new ids in the primary selection service. -/
def onClickNew (indexDatapoints : List IndexedInput → List IndexedInput)
    (st : EditorFlowState) : EditorFlowState :=
  let datum := newDatum st.editedData st.primarySelection.primarySelectedId
  let data := indexDatapoints [datum]
  { st with committed := st.committed ++ data,
            primarySelection := SelectionState.selectIds (data.map (fun d => some d.id)) }

/-- Handler `onClickCompare` (lines 214–222): remember the parent id, run
`onClickNew`, enable comparison mode, and point the secondary selection
service at the remembered parent. -/
def onClickCompare (indexDatapoints : List IndexedInput → List IndexedInput)
    (st : EditorFlowState) : EditorFlowState :=
  let parentId := st.primarySelection.primarySelectedId
  let st1 := onClickNew indexDatapoints st
  { st1 with compareExamplesEnabled := true,
             secondarySelection := SelectionState.selectIds [parentId] }

/-- Condition `makeEnabled` (line 195): the Add button is enabled iff the draft is
dirty and all required inputs are filled out. -/
def makeEnabled (requiredKeys : List String) (st : EditorFlowState) : Bool :=
  st.datapointEdited && allRequiredInputsFilledOut requiredKeys st.editedData

/-- Condition `compareEnabled` (line 196): Add-and-compare additionally requires
comparison mode to be off. -/
def compareEnabled (requiredKeys : List String) (st : EditorFlowState) : Bool :=
  makeEnabled requiredKeys st && !st.compareExamplesEnabled

/-- Modelled from the spec: the sentinel "none" dataset key
(`NONE_DS_DICT_KEY` from the library's `types` module, not in this
fragment), a placeholder meaning no dataset is currently selected. -/
def NONE_DS_DICT_KEY : String := "none"

/-- The local (uncommitted) state of the global settings dialog. -/
structure SettingsState where
  selectedDataset : String
  selectedLayout : String
  modelCheckboxValues : List (String × Bool)
  pathForDatapoints : String
  datapointsStatus : String
deriving DecidableEq

/-- Getter `selectedModels` (lines 84–89): names of checkboxes currently set. -/
def selectedModels (modelCheckboxValues : List (String × Bool)) : List String :=
  (modelCheckboxValues.filter (fun p => p.2)).map (fun p => p.1)

/-- JS `Map.prototype.set` on a map modelled as an association list with
insertion order: overwrite in place if present, else append. -/
def mapSet (m : List (String × Bool)) (k : String) (v : Bool) : List (String × Bool) :=
  if m.any (fun p => p.1 == k) then
    m.map (fun p => if p.1 == k then (k, v) else p)
  else m ++ [(k, v)]

/-- The model-checkbox `change` handler of `renderModelsConfig` (lines
298–306): record the checkbox, then, if the currently selected dataset is
no longer valid for the new selected-model set, reset the dataset
selection to the sentinel.  `isDatasetValidForModels` is the external
settings-validation predicate. -/
def onModelCheckboxChange (isDatasetValidForModels : String → List String → Bool)
    (st : SettingsState) (name : String) (checked : Bool) : SettingsState :=
  let values := mapSet st.modelCheckboxValues name checked
  let st1 : SettingsState := { st with modelCheckboxValues := values }
  if !(isDatasetValidForModels st1.selectedDataset (selectedModels values)) then
    { st1 with selectedDataset := NONE_DS_DICT_KEY }
  else st1

/-- Handler `handleDatasetChange` of `renderDatasetConfig` (lines 352–356):
clears the datapoints path and status and selects the dataset; the model
checkboxes are untouched. -/
def handleDatasetChange (st : SettingsState) (name : String) : SettingsState :=
  { st with pathForDatapoints := "", datapointsStatus := "",
            selectedDataset := name }

/-- The Submit-disabled condition: `renderBottomBar` (lines 212–215)
computes `noModelsSelected` and `datasetValid` and `renderButtons` (line
258) disables Submit on `noModelsSelected || !datasetValid`. -/
def submitDisabled (isDatasetValidForModels : String → List String → Bool)
    (selectedDataset : String) (modelCheckboxValues : List (String × Bool)) : Bool :=
  let noModelsSelected := (selectedModels modelCheckboxValues).length == 0
  let datasetValid :=
    isDatasetValidForModels selectedDataset (selectedModels modelCheckboxValues)
  noModelsSelected || !datasetValid

/-- Getter `newDatapoints` (lines 102–105): the current records whose metadata
marks them as added. -/
def newDatapoints (currentInputData : List IndexedInput) : List IndexedInput :=
  currentInputData.filter (fun input => input.meta.added)

/-- Getter `saveDatapointButtonDisabled` (lines 96–100). -/
def saveDatapointButtonDisabled (pathForDatapoints : String)
    (currentInputData : List IndexedInput)
    (currentDataset selectedDataset : String) : Bool :=
  pathForDatapoints == "" || (newDatapoints currentInputData).length == 0 ||
    currentDataset != selectedDataset

lemma splitFirst_single_of_not_mem {c : Char} {t : JSStr} (h : c ∉ t) :
    splitFirst [c] t = none := by
  induction t with
  | nil => rfl
  | cons x xs ih =>
    have hx : (c == x) = false := by
      simp only [beq_eq_false_iff_ne, ne_eq]
      intro hc
      exact h (hc ▸ List.mem_cons_self x xs)
    have hxs : c ∉ xs := fun hc => h (List.mem_cons_of_mem _ hc)
    simp [splitFirst, List.isPrefixOf, hx, ih hxs]

lemma splitFirst_single_append {c : Char} {t rest : JSStr} (h : c ∉ t) :
    splitFirst [c] (t ++ c :: rest) = some (t, rest) := by
  induction t with
  | nil => simp [splitFirst, List.isPrefixOf]
  | cons x xs ih =>
    have hx : (c == x) = false := by
      simp only [beq_eq_false_iff_ne, ne_eq]
      intro hc
      exact h (hc ▸ List.mem_cons_self x xs)
    have hxs : c ∉ xs := fun hc => h (List.mem_cons_of_mem _ hc)
    simp [splitFirst, List.isPrefixOf, hx, ih hxs]

lemma jsSplitGo_join {c : Char} :
    ∀ (T : List JSStr) (fuel : Nat), T ≠ [] → (∀ t ∈ T, c ∉ t) →
      T.length ≤ fuel → jsSplitGo [c] fuel (jsJoin [c] T) = T := by
  intro T
  induction T with
  | nil => intro fuel h; exact absurd rfl h
  | cons t T' ih =>
    intro fuel _ hmem hfuel
    match T', fuel with
    | [], fuel + 1 =>
      have ht : c ∉ t := hmem t (List.mem_cons_self _ _)
      simp [jsJoin, jsSplitGo, splitFirst_single_of_not_mem ht]
    | u :: ts, fuel + 1 =>
      have ht : c ∉ t := hmem t (List.mem_cons_self _ _)
      have hjoin : jsJoin [c] (t :: u :: ts) = t ++ c :: jsJoin [c] (u :: ts) := by
        simp [jsJoin]
      rw [hjoin]
      have hrest : ∀ x ∈ u :: ts, c ∉ x :=
        fun x hx => hmem x (List.mem_cons_of_mem _ hx)
      have hlen : (u :: ts).length ≤ fuel := by
        simpa [List.length_cons, Nat.succ_le_succ_iff] using hfuel
      simp [jsSplitGo, splitFirst_single_append ht,
        ih fuel (List.cons_ne_nil _ _) hrest hlen]

lemma length_le_jsJoin_length {c : Char} :
    ∀ T : List JSStr, T.length ≤ (jsJoin [c] T).length + 1 := by
  intro T
  induction T with
  | nil => simp [jsJoin]
  | cons t T' ih =>
    match T' with
    | [] => simp [jsJoin]
    | u :: ts =>
      have hj : jsJoin [c] (t :: u :: ts) = t ++ c :: jsJoin [c] (u :: ts) := by
        simp [jsJoin]
      rw [hj]
      simp only [List.length_cons, List.length_append] at ih ⊢
      omega

lemma jsJoin_ne_nil {c : Char} {T : List JSStr} (h1 : T ≠ []) (h2 : T ≠ [[]]) :
    jsJoin [c] T ≠ [] := by
  match T with
  | [] => exact absurd rfl h1
  | [t] =>
    have : t ≠ [] := by
      intro ht
      exact h2 (by rw [ht])
    simpa [jsJoin] using this
  | t :: u :: ts =>
    simp [jsJoin]

lemma jsSplit_single_join {c : Char} {T : List JSStr} (h1 : T ≠ [])
    (hmem : ∀ t ∈ T, c ∉ t) : jsSplit [c] (jsJoin [c] T) = T := by
  have hfuel : T.length ≤ (jsJoin [c] T).length + 1 := length_le_jsJoin_length T
  simp only [jsSplit, reduceCtorEq, if_false]
  exact jsSplitGo_join T _ h1 hmem hfuel

lemma parse_join_single (c : Char) (T : List JSStr) (hmem : ∀ t ∈ T, c ∉ t)
    (h2 : T ≠ [[]]) :
    (if jsJoin [c] T = [] then ([] : List JSStr)
     else jsSplit [c] (jsJoin [c] T)) = T := by
  by_cases h1 : T = []
  · subst h1; simp [jsJoin]
  · rw [if_neg (jsJoin_ne_nil h1 h2)]
    exact jsSplit_single_join h1 hmem

lemma jsObjGet_map_self (f : String → LitValue) :
    ∀ (keys : List String) (k : String), k ∈ keys →
      jsObjGet (keys.map (fun k2 => (k2, f k2))) k = some (f k) := by
  intro keys
  induction keys with
  | nil => intro k hk; cases hk
  | cons k0 ks ih =>
    intro k hk
    by_cases he : k0 = k
    · subst he; simp [jsObjGet]
    · have hmem : k ∈ ks := by
        cases hk with
        | head => exact absurd rfl he
        | tail _ h => exact h
      have hbeq : (k0 == k) = false := by simp [he]
      simpa [jsObjGet, List.find?, hbeq] using ih k hmem

lemma jsObjGet_isSome_of_mem :
    ∀ (d : List (String × LitValue)) (k : String), k ∈ d.map Prod.fst →
      ∃ v, jsObjGet d k = some v := by
  intro d
  induction d with
  | nil => intro k hk; cases hk
  | cons p ps ih =>
    intro k hk
    by_cases he : p.1 = k
    · exact ⟨p.2, by simp [jsObjGet, List.find?, he]⟩
    · have hmem : k ∈ ps.map Prod.fst := by
        cases hk with
        | head => exact absurd rfl he
        | tail _ h => exact h
      have hbeq : (p.1 == k) = false := by simp [he]
      obtain ⟨v, hv⟩ := ih k hmem
      exact ⟨v, by simpa [jsObjGet, List.find?, hbeq] using hv⟩

/-- C1: the input-rendering strategy chosen by `renderEntry` follows the
ordered, first-match-wins policy of §4.1 (explicit enumeration,
categorical classification, numeric classification, token sequence, span
labels, edge labels, sparse multilabel, default free text) and is a
deterministic function of the field kind, enumeration presence, and
categorical / numeric classification. -/
theorem renderEntry_dispatch_first_match_deterministic :
    (∀ (cat1 num1 : List String) (k1 : String) (s1 : LitType)
       (cat2 num2 : List String) (k2 : String) (s2 : LitType),
       s1.typeName = s2.typeName →
       s1.vocab.isSome = s2.vocab.isSome →
       cat1.contains k1 = cat2.contains k2 →
       num1.contains k1 = num2.contains k2 →
       chooseRenderStrategy cat1 num1 k1 s1 = chooseRenderStrategy cat2 num2 k2 s2) ∧
    (∀ (cat num : List String) (k : String) (s : LitType),
       chooseRenderStrategy cat num k s = firstMatch (dispatchTable cat num k s)) := by
  constructor
  · intro cat1 num1 k1 s1 cat2 num2 k2 s2 hname hvocab hcat hnum
    simp only [chooseRenderStrategy, isLitSubtype, hname, hvocab, hcat, hnum]
  · intro cat num k s
    rfl

/-- Witness for C1: two fields with the same kind, enumeration presence
and classification, against different feature-name lists, get the same
strategy. -/
theorem renderEntry_dispatch_witness :
    chooseRenderStrategy ["premise"] ["score"] "premise"
      { typeName := "TextSegment" } =
    chooseRenderStrategy ["premise", "hypothesis"] ["score"] "hypothesis"
      { typeName := "TextSegment" } :=
  renderEntry_dispatch_first_match_deterministic.1 _ _ _ _ _ _ _ _
    rfl rfl (by decide) (by decide)

/-- C2 (counterexample): the token round trip fails as stated at the
singleton list containing the empty string — no element of it contains a
space, yet it displays as the empty string and parses back to the empty
list, not to itself. -/
theorem tokens_roundtrip_counterexample :
    (∀ t ∈ [([] : JSStr)], ' ' ∉ t) ∧
    parseTokensValue (tokensDisplay (some [[]])) ≠ [[]] := by
  decide

/-- C2 (amended): for every token list `T` with no element containing a
space, parsing the displayed string yields `T` again if and only if `T`
is not the singleton list of the empty string — so that singleton is the
only exception the counterexample forces, and it displays as the empty
string and parses back to the empty list; the empty list displays as the
empty string, and the empty string parses to the empty list. -/
theorem tokens_roundtrip_amended (T : List JSStr)
    (hmem : ∀ t ∈ T, ' ' ∉ t) :
    (parseTokensValue (tokensDisplay (some T)) = T ↔ T ≠ [[]]) ∧
    tokensDisplay (some [[]]) = [] ∧
    parseTokensValue (tokensDisplay (some [[]])) = [] ∧
    tokensDisplay (some []) = [] ∧ parseTokensValue [] = [] := by
  refine ⟨⟨?_, ?_⟩, rfl, rfl, rfl, rfl⟩
  · intro h hT
    subst hT
    exact absurd h (by decide)
  · intro hT
    have h := parse_join_single ' ' T hmem hT
    simpa [parseTokensValue, tokensDisplay] using h

/-- Witness for C2 (amended) on the token list `["hi", "you"]`. -/
theorem tokens_roundtrip_amended_witness :
    (parseTokensValue (tokensDisplay (some [['h', 'i'], ['y', 'o', 'u']])) =
        [['h', 'i'], ['y', 'o', 'u']] ↔
      [['h', 'i'], ['y', 'o', 'u']] ≠ [[]]) ∧
    tokensDisplay (some [[]]) = [] ∧
    parseTokensValue (tokensDisplay (some [[]])) = [] ∧
    tokensDisplay (some []) = [] ∧ parseTokensValue [] = [] :=
  tokens_roundtrip_amended [['h', 'i'], ['y', 'o', 'u']] (by decide)

/-- C3 (counterexample): the sparse-multilabel round trip fails as
stated.  With the default comma separator the singleton list of the
empty string displays as the empty string and parses back to the empty
list; and with the two-character separator `"aa"` the list `["a", "a"]`
— no element of which contains the separator — joins to `"aaaa"`, which
splits into three pieces. -/
theorem sparse_roundtrip_counterexample :
    (parseSparseMultilabelValue [',']
      (sparseMultilabelDisplay [','] (some [[]])) ≠ [[]]) ∧
    (¬ ((['a', 'a'] : JSStr) <:+: ['a']) ∧
      parseSparseMultilabelValue ['a', 'a']
        (sparseMultilabelDisplay ['a', 'a'] (some [['a'], ['a']])) ≠
          [['a'], ['a']]) := by
  decide

/-- C3 (amended): for a single-character separator `c` — and the
separator defaults to the one-character string `","` when the field
specification gives none — display and parse round trip for every label
list with no element containing `c`, other than the singleton list of
the empty string; the empty string parses to the empty list under any
separator.  (For separators longer than one character the round trip can
fail even when no element contains the separator.) -/
theorem sparse_roundtrip_amended (c : Char) (T : List JSStr) (sep : JSStr)
    (fieldSpec : LitType) (hsep : fieldSpec.separator = none)
    (hmem : ∀ t ∈ T, c ∉ t) (hT : T ≠ [[]]) :
    parseSparseMultilabelValue [c] (sparseMultilabelDisplay [c] (some T)) = T ∧
    parseSparseMultilabelValue sep [] = [] ∧
    sparseSeparator fieldSpec = "," := by
  refine ⟨?_, rfl, by simp [sparseSeparator, hsep]⟩
  have h := parse_join_single c T hmem hT
  simpa [parseSparseMultilabelValue, sparseMultilabelDisplay] using h

/-- Witness for C3 (amended) with separator `"|"` on `["a", "bc"]`. -/
theorem sparse_roundtrip_amended_witness :
    parseSparseMultilabelValue ['|']
      (sparseMultilabelDisplay ['|'] (some [['a'], ['b', 'c']])) =
        [['a'], ['b', 'c']] ∧
    parseSparseMultilabelValue [';'] [] = [] ∧
    sparseSeparator { typeName := "SparseMultilabel" } = "," :=
  sparse_roundtrip_amended '|' [['a'], ['b', 'c']] [';']
    { typeName := "SparseMultilabel" } rfl (by decide) (by decide)

/-- C4: `allRequiredInputsFilledOut` is false iff some field of the
draft is flagged required by the current model and holds the
empty-string value; in particular it is true when the required-key set
is empty. -/
theorem allRequiredInputsFilledOut_iff (req : List String)
    (editedData : List (String × LitValue)) :
    (allRequiredInputsFilledOut req editedData = false ↔
      ∃ k ∈ editedData.map Prod.fst, k ∈ req ∧
        jsObjGet editedData k = some (LitValue.str "")) ∧
    (req = [] → allRequiredInputsFilledOut req editedData = true) := by
  constructor
  · simp [allRequiredInputsFilledOut, List.any_eq_true]
  · rintro rfl
    simp [allRequiredInputsFilledOut]

/-- Witness for C4: with an empty required-key set the getter is true
even though the draft holds an empty string. -/
theorem allRequiredInputsFilledOut_iff_witness :
    allRequiredInputsFilledOut [] [("text", LitValue.str "")] = true :=
  (allRequiredInputsFilledOut_iff [] [("text", LitValue.str "")]).2 rfl

/-- C5: after `resetEditedData null` every draft field holds the default
value for its field and the key list is `currentInputDataKeys`; after
`resetEditedData record` every draft field holds the value of `record`
and the key list is that of `record`; in both cases the modified flag is
cleared, and when the source keys agree with the field specification the
draft key set equals the specification key set. -/
theorem resetEditedData_spec (keys : List String)
    (spec : List (String × LitType))
    (dflt : String → List (String × LitType) → LitValue)
    (d : List (String × LitValue)) :
    ((resetEditedData keys spec dflt none).datapointEdited = false) ∧
    ((resetEditedData keys spec dflt none).editedData.map Prod.fst = keys) ∧
    (∀ k ∈ keys,
      jsObjGet (resetEditedData keys spec dflt none).editedData k =
        some (dflt k spec)) ∧
    ((resetEditedData keys spec dflt (some d)).datapointEdited = false) ∧
    ((resetEditedData keys spec dflt (some d)).editedData.map Prod.fst =
      d.map Prod.fst) ∧
    (∀ k ∈ d.map Prod.fst,
      jsObjGet (resetEditedData keys spec dflt (some d)).editedData k =
        jsObjGet d k) ∧
    (keys = spec.map Prod.fst →
      (resetEditedData keys spec dflt none).editedData.map Prod.fst =
        spec.map Prod.fst) ∧
    (d.map Prod.fst = spec.map Prod.fst →
      (resetEditedData keys spec dflt (some d)).editedData.map Prod.fst =
        spec.map Prod.fst) := by
  have hkeys1 : (resetEditedData keys spec dflt none).editedData.map Prod.fst = keys := by
    simp [resetEditedData, Function.comp_def]
  have hkeys2 : (resetEditedData keys spec dflt (some d)).editedData.map Prod.fst =
      d.map Prod.fst := by
    simp [resetEditedData, Function.comp_def]
  refine ⟨rfl, hkeys1, ?_, rfl, hkeys2, ?_, fun h => h ▸ hkeys1, fun h => h ▸ hkeys2⟩
  · intro k hk
    simpa [resetEditedData] using
      jsObjGet_map_self (fun k2 => dflt k2 spec) keys k hk
  · intro k hk
    obtain ⟨v, hv⟩ := jsObjGet_isSome_of_mem d k hk
    have h1 := jsObjGet_map_self (fun k2 => (jsObjGet d k2).getD (LitValue.str ""))
      (d.map Prod.fst) k hk
    simp only [resetEditedData]
    rw [h1, hv]
    simp [hv]

/-- Witness for C5: a null reset fills the default, a record reset
copies the record value. -/
theorem resetEditedData_spec_witness :
    jsObjGet (resetEditedData ["a"] []
        (fun _ _ => LitValue.str "dflt") none).editedData "a" =
      some (LitValue.str "dflt") ∧
    jsObjGet (resetEditedData [] [] (fun _ _ => LitValue.str "dflt")
        (some [("b", LitValue.num 3)])).editedData "b" =
      some (LitValue.num 3) := by
  constructor
  · exact (resetEditedData_spec ["a"] [] (fun _ _ => LitValue.str "dflt")
      []).2.2.1 "a" (by decide)
  · have h := (resetEditedData_spec [] [] (fun _ _ => LitValue.str "dflt")
      [("b", LitValue.num 3)]).2.2.2.2.2.1 "b" (by decide)
    exact h.trans (by decide)

/-- C6: Submit is disabled exactly when no models are selected or the
(models, dataset) pair is judged incompatible by the external validity
predicate, and enabled when at least one model is selected and the pair
is compatible. -/
theorem submitDisabled_iff (isValid : String → List String → Bool)
    (ds : String) (m : List (String × Bool)) :
    (submitDisabled isValid ds m = true ↔
      selectedModels m = [] ∨ isValid ds (selectedModels m) = false) ∧
    (submitDisabled isValid ds m = false ↔
      selectedModels m ≠ [] ∧ isValid ds (selectedModels m) = true) := by
  constructor <;> simp [submitDisabled, List.length_eq_zero]

/-- C7: when a model-checkbox change leaves the selected dataset invalid
for the new selected-model set, the dataset selection is forced to the
"none" sentinel; when it stays valid the dataset selection is unchanged;
and changing the dataset never alters the model checkboxes. -/
theorem modelChange_dataset_policy (isValid : String → List String → Bool)
    (st : SettingsState) (name : String) (checked : Bool) :
    (isValid st.selectedDataset
        (selectedModels (mapSet st.modelCheckboxValues name checked)) = false →
      (onModelCheckboxChange isValid st name checked).selectedDataset =
        NONE_DS_DICT_KEY) ∧
    (isValid st.selectedDataset
        (selectedModels (mapSet st.modelCheckboxValues name checked)) = true →
      (onModelCheckboxChange isValid st name checked).selectedDataset =
        st.selectedDataset) ∧
    ((onModelCheckboxChange isValid st name checked).modelCheckboxValues =
      mapSet st.modelCheckboxValues name checked) ∧
    (∀ (st2 : SettingsState) (dsName : String),
      (handleDatasetChange st2 dsName).modelCheckboxValues =
        st2.modelCheckboxValues) := by
  refine ⟨?_, ?_, ?_, ?_⟩
  · intro h; simp [onModelCheckboxChange, h]
  · intro h; simp [onModelCheckboxChange, h]
  · by_cases h : isValid st.selectedDataset
        (selectedModels (mapSet st.modelCheckboxValues name checked)) <;>
      simp [onModelCheckboxChange, h]
  · intro st2 dsName; rfl

/-- Witness for C7: checking a model under an always-false validity
predicate forces the dataset selection to the sentinel. -/
theorem modelChange_dataset_policy_witness :
    (onModelCheckboxChange (fun _ _ => false)
      { selectedDataset := "d", selectedLayout := "l",
        modelCheckboxValues := [("m", false)],
        pathForDatapoints := "", datapointsStatus := "" }
      "m" true).selectedDataset = NONE_DS_DICT_KEY :=
  (modelChange_dataset_policy (fun _ _ => false)
    { selectedDataset := "d", selectedLayout := "l",
      modelCheckboxValues := [("m", false)],
      pathForDatapoints := "", datapointsStatus := "" }
    "m" true).1 rfl

/-- C8 (amended): `onClickNew` packages the draft as a new record with
source tag `"manual"` and parent reference the current primary-selected
id; when nothing is selected it neither fails nor no-ops but commits the
record with a null parent reference; the Add button is enabled exactly
when the draft is modified and all required inputs are filled out. -/
theorem commitAsNew_spec (f : List IndexedInput → List IndexedInput)
    (st : EditorFlowState) (requiredKeys : List String) :
    ((newDatum st.editedData st.primarySelection.primarySelectedId).meta.source =
      "manual") ∧
    ((newDatum st.editedData st.primarySelection.primarySelectedId).meta.parentId =
      st.primarySelection.primarySelectedId) ∧
    ((newDatum st.editedData st.primarySelection.primarySelectedId).data =
      st.editedData) ∧
    ((onClickNew f st).committed =
      st.committed ++ f [newDatum st.editedData st.primarySelection.primarySelectedId]) ∧
    (makeEnabled requiredKeys st = true ↔
      st.datapointEdited = true ∧
        allRequiredInputsFilledOut requiredKeys st.editedData = true) := by
  refine ⟨rfl, rfl, rfl, rfl, ?_⟩
  simp [makeEnabled]

/-- A concrete editor state with a modified, fully filled draft and no
primary selection. -/
def noSelectionState : EditorFlowState :=
  { editedData := [("text", LitValue.str "hello")],
    datapointEdited := true,
    primarySelection := { selectedIds := [], primarySelectedId := none },
    secondarySelection := { selectedIds := [], primarySelectedId := none },
    compareExamplesEnabled := false,
    committed := [] }

/-- C8 (counterexample): with no record selected the Add action neither
fails nor no-ops — the button is still enabled and the handler commits a
datapoint, with a null parent reference. -/
theorem commitAsNew_no_selection_counterexample :
    noSelectionState.primarySelection.primarySelectedId = none ∧
    makeEnabled ["text"] noSelectionState = true ∧
    (onClickNew (fun l => l) noSelectionState).committed ≠ [] ∧
    ((onClickNew (fun l => l) noSelectionState).committed.map
      (fun d2 => d2.meta.parentId)) = [none] := by
  decide

/-- C9: Add-and-compare performs the same commit and primary-selection
update as Add, additionally enables comparison mode, and sets the
secondary selection to the id of the record that was primary-selected
before the commit. -/
theorem commitAsComparison_spec (f : List IndexedInput → List IndexedInput)
    (st : EditorFlowState) (pid : String)
    (h : st.primarySelection.primarySelectedId = some pid) :
    ((onClickCompare f st).committed = (onClickNew f st).committed) ∧
    ((onClickCompare f st).primarySelection = (onClickNew f st).primarySelection) ∧
    ((onClickCompare f st).compareExamplesEnabled = true) ∧
    ((onClickCompare f st).secondarySelection.selectedIds = [some pid]) ∧
    ((onClickCompare f st).secondarySelection.primarySelectedId = some pid) := by
  refine ⟨rfl, rfl, rfl, ?_, ?_⟩ <;>
    simp [onClickCompare, onClickNew, SelectionState.selectIds, h]

/-- A concrete editor state with primary-selected record `"p1"`. -/
def compareStartState : EditorFlowState :=
  { editedData := [("text", LitValue.str "x")],
    datapointEdited := true,
    primarySelection := { selectedIds := [some "p1"], primarySelectedId := some "p1" },
    secondarySelection := { selectedIds := [], primarySelectedId := none },
    compareExamplesEnabled := false,
    committed := [] }

/-- Witness for C9 at a concrete state with parent `"p1"`. -/
theorem commitAsComparison_witness :
    ((onClickCompare (fun l => l) compareStartState).committed =
      (onClickNew (fun l => l) compareStartState).committed) ∧
    ((onClickCompare (fun l => l) compareStartState).primarySelection =
      (onClickNew (fun l => l) compareStartState).primarySelection) ∧
    ((onClickCompare (fun l => l) compareStartState).compareExamplesEnabled = true) ∧
    ((onClickCompare (fun l => l) compareStartState).secondarySelection.selectedIds =
      [some "p1"]) ∧
    ((onClickCompare (fun l => l) compareStartState).secondarySelection.primarySelectedId =
      some "p1") :=
  commitAsComparison_spec (fun l => l) compareStartState "p1" rfl

/-- C10: Save-new-datapoints is disabled exactly when the entered path is
empty, there are no added datapoints, or the dataset selected in the
dialog differs from the application's current dataset; whenever it is
enabled, the dialog's dataset is the currently loaded one. -/
theorem saveDatapointButtonDisabled_iff (path : String)
    (currentInputData : List IndexedInput)
    (currentDataset selectedDataset : String) :
    (saveDatapointButtonDisabled path currentInputData currentDataset
        selectedDataset = true ↔
      path = "" ∨ newDatapoints currentInputData = [] ∨
        currentDataset ≠ selectedDataset) ∧
    (saveDatapointButtonDisabled path currentInputData currentDataset
        selectedDataset = false → selectedDataset = currentDataset) := by
  constructor
  · simp [saveDatapointButtonDisabled, List.length_eq_zero, or_assoc]
  · intro h
    simp [saveDatapointButtonDisabled, List.length_eq_zero] at h
    exact h.2.symm

/-- Witness for C10: with a nonempty path, an added datapoint, and
matching datasets, the button is enabled and the datasets agree. -/
theorem saveDatapointButtonDisabled_witness :
    ("ds" : String) = "ds" :=
  (saveDatapointButtonDisabled_iff "path"
    [{ data := [], id := "i1",
       meta := { source := "manual", added := true, parentId := none } }]
    "ds" "ds").2 (by decide)

end Lit
